import Mathlib

/-!
Shallow embedding of `src/main.py` (gptv-screenshot-renamer).

The embedding models the concurrent request-dispatch-and-retry subsystem
(`label_image_async`, `get_labels`) and the downstream label-parsing /
file-move logic (`sanitize_label` and the move loop of
`label_and_move_images`).

Network nondeterminism is an oracle `resp : Nat → Response` giving the
observable outcome of the n-th HTTP attempt for one item, and the jitter
drawn by `random.uniform(0, 1)` is an oracle `j : Nat → ℚ` giving the
n-th random draw.  Python floats here are modelled as exact rationals:
the delays involved are `initial_delay * 2^k`, exact in floating point.
Python strings are modelled as Lean `String` in the transport layer and
as `List Char` in the file-move layer (Python string operations there are
list operations on the character sequence).
-/

namespace GPTV

/-- One HTTP attempt's observable outcome, exactly as `label_image_async`
distinguishes them: status 200 whose body parses to a label
(`ok (some label)`), status 200 whose body parsing raises
(`ok none` — malformed JSON or missing fields), status 429
(`rateLimited`), any other status with no exception (`otherStatus code`),
or an `aiohttp.client_exceptions.ServerDisconnectedError`
(`serverDisconnected`). -/
inductive Response where
  | ok (body : Option String)
  | rateLimited
  | otherStatus (code : Nat)
  | serverDisconnected
  deriving DecidableEq

/-- How one run of the Python coroutine body ends: a normal return value
(`value none` is Python `None`, reached when the `for` loop completes all
iterations without returning) or an uncaught exception propagating out of
the coroutine. -/
inductive RunResult where
  | value (v : Option String)
  | exn
  deriving DecidableEq

/-- The observable behaviour of one `label_image_async` call: its result,
the number of HTTP requests issued, and all sleeps performed — each sleep
recorded as the pair (current base delay, jitter drawn for it), the
actual sleep duration being their sum. -/
structure ItemRun where
  result : RunResult
  attempts : Nat
  sleeps : List (ℚ × ℚ)
  deriving DecidableEq

/-- The `for attempt in range(max_retries)` loop of `label_image_async`
(src/main.py lines 92–111).  `fuel` is the number of loop iterations left
(`max_retries - attempt`), `attempt` the Python loop variable, `delay`
the current backoff delay, `slept` the sleeps performed so far.

Per iteration, matching the Python exactly:
* status 200, body parses → `return data["choices"][0]["message"]["content"]`;
* status 200, body parsing raises → the exception is not a
  `ServerDisconnectedError`, so it escapes the `try` and the coroutine;
* status 429 → if `attempt < max_retries - 1`, sleep
  `delay + random.uniform(0,1)`, double `delay`, continue; else
  `return f"Error: {response.status}"` (the status is 429 here);
* any other status → no branch of the `if/elif` fires: the loop silently
  proceeds to the next attempt, with no sleep and no delay change;
* `ServerDisconnectedError` raised → same retry logic as 429, the final
  return being `"Error: Server disconnected"`.
Falling off the loop returns Python `None`. -/
def retryLoop (resp : Nat → Response) (j : Nat → ℚ) (max_retries : Nat) :
    Nat → Nat → ℚ → List (ℚ × ℚ) → ItemRun
  | 0, attempt, _delay, slept => ⟨RunResult.value none, attempt, slept⟩
  | fuel + 1, attempt, delay, slept =>
    match resp attempt with
    | Response.ok (some content) =>
        ⟨RunResult.value (some content), attempt + 1, slept⟩
    | Response.ok none => ⟨RunResult.exn, attempt + 1, slept⟩
    | Response.rateLimited =>
        if attempt < max_retries - 1 then
          retryLoop resp j max_retries fuel (attempt + 1) (delay * 2)
            (slept ++ [(delay, j slept.length)])
        else ⟨RunResult.value (some "Error: 429"), attempt + 1, slept⟩
    | Response.otherStatus _ =>
        retryLoop resp j max_retries fuel (attempt + 1) delay slept
    | Response.serverDisconnected =>
        if attempt < max_retries - 1 then
          retryLoop resp j max_retries fuel (attempt + 1) (delay * 2)
            (slept ++ [(delay, j slept.length)])
        else ⟨RunResult.value (some "Error: Server disconnected"), attempt + 1, slept⟩

/-- The coroutine `label_image_async(session, image_path, key, max_retries=5, initial_delay=1.0)`:
runs the retry loop with `delay = initial_delay` from attempt 0. -/
def label_image_async (max_retries : Nat) (initial_delay : ℚ)
    (j : Nat → ℚ) (resp : Nat → Response) : ItemRun :=
  retryLoop resp j max_retries max_retries 0 initial_delay []

/-- The per-item environment: the response oracle and the jitter oracle of
one work item (the behaviour the remote API and the RNG exhibit towards it). -/
abbrev Env := (Nat → Response) × (Nat → ℚ)

/-- One item's run under its environment. -/
def runItem (max_retries : Nat) (initial_delay : ℚ) (e : Env) : ItemRun :=
  label_image_async max_retries initial_delay e.2 e.1

/-- The call `asyncio.gather(*tasks)`: if any task's coroutine raises, the awaited
`gather` re-raises and no result list is produced; otherwise it yields the
tasks' return values in task (input) order. -/
def gather : List ItemRun → Except Unit (List (Option String))
  | [] => Except.ok []
  | r :: rs =>
    match r.result with
    | RunResult.exn => Except.error ()
    | RunResult.value v => (gather rs).map (fun vs => v :: vs)

/-- The function `get_labels(image_files)` (src/main.py lines 114–119): one task per
item via `label_image_async`, collected with `asyncio.gather`. -/
def get_labels (max_retries : Nat) (initial_delay : ℚ) (envs : List Env) :
    Except Unit (List (Option String)) :=
  gather (envs.map (fun e => runItem max_retries initial_delay e))

/-- The value a completed (non-raising) task contributes to the gathered
list. -/
def finalValue (r : ItemRun) : Option String :=
  match r.result with
  | RunResult.value v => v
  | RunResult.exn => none

/-- The `invalid_chars` list of `sanitize_label` (src/main.py line 134). -/
def invalid_chars : List Char := ['/', ':', '*', '?', '\"', '<', '>', '|']

/-- Python `label.replace(old, new)` for one-character `old`/`new`:
replace every occurrence of `old` in the character sequence. -/
def pyReplaceChar (s : List Char) (old new : Char) : List Char :=
  s.map (fun c => if c = old then new else c)

/-- The loop body of `sanitize_label` (src/main.py lines 133–137) on the
character sequence: successively replace each invalid character by `'_'`. -/
def sanitizeChars (label : List Char) : List Char :=
  invalid_chars.foldl (fun l c => pyReplaceChar l c '_') label

/-- The function `sanitize_label(label)` on Python strings. -/
def sanitize_label (label : String) : String :=
  String.mk (sanitizeChars label.data)

/-- The effect of `sanitize_label`'s replace chain on one character:
running one character through the successive replacements. -/
def sanitizeChar (a : Char) : Char :=
  invalid_chars.foldl (fun b c => if b = c then '_' else b) a

/-- Python `s.split(sep)` for a one-character separator: the (always
nonempty) list of chunks between occurrences of `sep`. -/
def pySplitParts (sep : Char) : List Char → List (List Char)
  | [] => [[]]
  | c :: cs =>
    match pySplitParts sep cs with
    | [] => [[]]
    | p :: ps => if c = sep then [] :: p :: ps else (c :: p) :: ps

/-- A file move performed by the loop of `label_and_move_images`
(src/main.py lines 167–174): the destination subfolder name and the
destination file name. -/
structure MoveAction where
  folder : List Char
  filename : List Char
  deriving DecidableEq

/-- The move computed for one (label, image) pair by the loop body
(src/main.py lines 168–172):
`folder_name = label.split("_")[0]`; the subfolder is `folder_name + "s"`;
`sanitized_label = sanitize_label(label[len(folder_name)+1:])`; the
destination file is `sanitized_label + "." + image.split(".")[-1]`. -/
def mkMove (label : List Char) (image : List Char) : MoveAction :=
  let folder_name := (pySplitParts '_' label).headD []
  { folder := folder_name ++ ['s'],
    filename := sanitizeChars (label.drop (folder_name.length + 1)) ++
      '.' :: (pySplitParts '.' image).getLastD [] }

/-- The `for image, label in zip(image_files, labels)` loop of
`label_and_move_images`.  A label that is Python `None` makes
`label.split("_")` raise `AttributeError`, which aborts the loop: the
items before it have been moved, this item and all later ones are not.
Returns the moves performed and whether the loop crashed. -/
def moveLoop : List (List Char × Option (List Char)) →
    List (List Char × MoveAction) × Bool
  | [] => ([], false)
  | (_, none) :: _ => ([], true)
  | (image, some label) :: rest =>
    let r := moveLoop rest
    ((image, mkMove label image) :: r.1, r.2)

/-- The body of `label_and_move_images` after file discovery: fetch labels with
`asyncio.run(get_labels(...))` (an exception there aborts the run), then
run the move loop over `zip(image_files, labels)`. -/
def label_and_move_images (max_retries : Nat) (initial_delay : ℚ)
    (files : List (List Char)) (envs : List Env) :
    Except Unit (List (List Char × MoveAction) × Bool) :=
  match get_labels max_retries initial_delay envs with
  | Except.error () => Except.error ()
  | Except.ok labels =>
      Except.ok (moveLoop (files.zip (labels.map (Option.map String.data))))

/-- Modelled from the spec's words (for the refinement claim about the move
step): "the substring before the first delimiter". -/
def specBeforeFirst (sep : Char) (s : List Char) : List Char :=
  s.takeWhile (fun c => c != sep)

/-- Modelled from the spec's words: "the remainder after that first
delimiter". -/
def specAfterFirst (sep : Char) (s : List Char) : List Char :=
  (s.dropWhile (fun c => c != sep)).drop 1

/-- The spec scenario's item A: every attempt succeeds with label
"Screenshot_VSCode_Python". -/
def envA : Env := (fun _ => Response.ok (some "Screenshot_VSCode_Python"), fun _ => 0)

/-- The spec scenario's item B: HTTP 429 on attempts 1 and 2, then success
with label "Meme_Cat_Funny". -/
def envB : Env :=
  (fun n => if n < 2 then Response.rateLimited else Response.ok (some "Meme_Cat_Funny"),
   fun _ => 0)

/-- The spec scenario's item C: every attempt returns HTTP 500. -/
def envC : Env := (fun _ => Response.otherStatus 500, fun _ => 0)

/-! ## General lemmas about the retry loop -/

/-- If every attempt yields a status other than 200 and 429 with no
exception, no branch of the loop body ever fires: the loop silently runs
through all its remaining iterations, performs no sleep, and falls off the
end, returning Python `None`. -/
theorem retryLoop_allFatal (resp : Nat → Response) (j : Nat → ℚ) (mr : Nat)
    (h : ∀ n, ∃ c, resp n = Response.otherStatus c) :
    ∀ fuel attempt delay slept,
      retryLoop resp j mr fuel attempt delay slept =
        ⟨RunResult.value none, attempt + fuel, slept⟩ := by
  intro fuel
  induction fuel with
  | zero => intro attempt delay slept; simp [retryLoop]
  | succ f ih =>
    intro attempt delay slept
    obtain ⟨c, hc⟩ := h attempt
    have harith : attempt + 1 + f = attempt + (f + 1) := by omega
    simp only [retryLoop, hc]
    rw [ih, harith]

/-- If every attempt up to `max_retries` is rate limited, the loop runs all
its iterations and returns `"Error: 429"` on the last one; the attempt
counter reaches exactly `max_retries`, so a response available on a later
attempt is never requested. -/
theorem retryLoop_all429 (resp : Nat → Response) (j : Nat → ℚ) (mr : Nat)
    (h : ∀ n, n < mr → resp n = Response.rateLimited) :
    ∀ fuel attempt delay slept, attempt + fuel = mr → 0 < fuel →
      (retryLoop resp j mr fuel attempt delay slept).result =
          RunResult.value (some "Error: 429") ∧
        (retryLoop resp j mr fuel attempt delay slept).attempts = mr := by
  intro fuel
  induction fuel with
  | zero => intro _ _ _ _ hf; exact absurd hf (lt_irrefl 0)
  | succ f ih =>
    intro attempt delay slept hsum _
    have hresp := h attempt (by omega)
    by_cases hlt : attempt < mr - 1
    · have hf : 0 < f := by omega
      simp only [retryLoop, hresp, if_pos hlt]
      exact ih (attempt + 1) (delay * 2) (slept ++ [(delay, j slept.length)]) (by omega) hf
    · simp only [retryLoop, hresp, if_neg hlt]
      exact ⟨trivial, by omega⟩

/-- The sleeps performed by the retry loop extend the accumulated ones by a
geometric sequence: each sleep's base delay is the current delay doubled
once per earlier sleep, and its jitter is the next random draw. -/
theorem retryLoop_sleeps (resp : Nat → Response) (j : Nat → ℚ) (mr : Nat) :
    ∀ fuel attempt delay slept, ∃ k,
      (retryLoop resp j mr fuel attempt delay slept).sleeps =
        slept ++ (List.range k).map (fun t => (delay * 2 ^ t, j (slept.length + t))) := by
  intro fuel
  induction fuel with
  | zero => intro attempt delay slept; exact ⟨0, by simp [retryLoop]⟩
  | succ f ih =>
    intro attempt delay slept
    have hstep : ∀ (hl : attempt < mr - 1),
        (∃ k, (retryLoop resp j mr f (attempt + 1) (delay * 2)
            (slept ++ [(delay, j slept.length)])).sleeps =
          (slept ++ [(delay, j slept.length)]) ++ (List.range k).map
            (fun t => (delay * 2 * 2 ^ t, j ((slept ++ [(delay, j slept.length)]).length + t)))) →
        ∃ k, (retryLoop resp j mr f (attempt + 1) (delay * 2)
            (slept ++ [(delay, j slept.length)])).sleeps =
          slept ++ (List.range k).map (fun t => (delay * 2 ^ t, j (slept.length + t))) := by
      intro _ hex
      obtain ⟨k, hk⟩ := hex
      refine ⟨k + 1, ?_⟩
      rw [hk, List.range_succ_eq_map, List.map_cons, List.map_map, List.append_assoc,
        List.singleton_append]
      congr 1
      congr 1
      · simp
      · congr 1
        funext t
        simp only [Function.comp_apply, List.length_append, List.length_cons,
          List.length_nil, Prod.mk.injEq]
        constructor
        · rw [pow_succ]; ring
        · congr 1; omega
    cases hresp : resp attempt with
    | ok body => cases body <;> exact ⟨0, by simp [retryLoop, hresp]⟩
    | rateLimited =>
      by_cases hlt : attempt < mr - 1
      · simp only [retryLoop, hresp, if_pos hlt]
        exact hstep hlt (ih (attempt + 1) (delay * 2) (slept ++ [(delay, j slept.length)]))
      · exact ⟨0, by simp [retryLoop, hresp, if_neg hlt]⟩
    | otherStatus c =>
      obtain ⟨k, hk⟩ := ih (attempt + 1) delay slept
      exact ⟨k, by simp only [retryLoop, hresp]; exact hk⟩
    | serverDisconnected =>
      by_cases hlt : attempt < mr - 1
      · simp only [retryLoop, hresp, if_pos hlt]
        exact hstep hlt (ih (attempt + 1) (delay * 2) (slept ++ [(delay, j slept.length)]))
      · exact ⟨0, by simp [retryLoop, hresp, if_neg hlt]⟩

/-! ## Claim theorems -/

/-- C6: for every item, the n-th sleep performed by `label_image_async`
(0-indexed) has base delay `initial_delay * 2 ^ n` — with the default
`initial_delay = 1.0` the base-delay sequence is 1, 2, 4, 8, 16, … with no
upper cap — and its duration is that base delay plus the n-th draw of
`random.uniform(0, 1)` (the jitter oracle `j`): the delay is doubled at
each sleep and only there. -/
theorem c6_backoff_doubling (mr : Nat) (d : ℚ) (j : Nat → ℚ) (resp : Nat → Response) :
    (label_image_async mr d j resp).sleeps =
      (List.range (label_image_async mr d j resp).sleeps.length).map
        (fun n => (d * 2 ^ n, j n)) := by
  obtain ⟨k, hk⟩ := retryLoop_sleeps resp j mr mr 0 d []
  simp only [List.length_nil, Nat.zero_add, List.nil_append] at hk
  unfold label_image_async
  rw [hk, List.length_map, List.length_range]

/-- C2 counterexample: a fatal HTTP status (500) on the first attempt does
not make the classification give up with a `Failed` outcome after one
attempt: the loop silently proceeds, and a success on the second attempt is
returned — two attempts are made, not one. -/
theorem c2_counterexample :
    (label_image_async 5 1 (fun _ => 0)
        (fun n => if n = 0 then Response.otherStatus 500
          else Response.ok (some "Recovered"))).result =
      RunResult.value (some "Recovered") ∧
    (label_image_async 5 1 (fun _ => 0)
        (fun n => if n = 0 then Response.otherStatus 500
          else Response.ok (some "Recovered"))).attempts = 2 ∧
    (2 : Nat) ≠ 1 := by
  refine ⟨rfl, rfl, by omega⟩

/-- C2 amended: a fatal HTTP status (neither 200 nor 429, no exception) is
silently ignored by the loop body — it is retried, not given up on.  If
every attempt yields such a status, the loop makes all `max_retries`
attempts with no sleeps and returns Python `None` (not a `Failed` error
string); a malformed 200 body instead raises an uncaught exception after
exactly one attempt. -/
theorem c2_amended (mr : Nat) (d : ℚ) (j : Nat → ℚ) :
    (∀ resp : Nat → Response, (∀ n, ∃ c, resp n = Response.otherStatus c) →
        label_image_async mr d j resp = ⟨RunResult.value none, mr, []⟩) ∧
    (∀ resp : Nat → Response, resp 0 = Response.ok none → 1 ≤ mr →
        (label_image_async mr d j resp).result = RunResult.exn ∧
        (label_image_async mr d j resp).attempts = 1) := by
  constructor
  · intro resp h
    have h0 := retryLoop_allFatal resp j mr h mr 0 d []
    simpa [label_image_async] using h0
  · intro resp h0 hmr
    obtain ⟨m, rfl⟩ : ∃ m, mr = m + 1 := ⟨mr - 1, by omega⟩
    constructor <;> simp [label_image_async, retryLoop, h0]

/-- Witness for the amended C2 at `max_retries = 5`: all-500 responses give
`None` after 5 attempts with no sleeps; a malformed body raises. -/
theorem c2_amended_witness :
    label_image_async 5 1 (fun _ => 0) (fun _ => Response.otherStatus 500) =
      ⟨RunResult.value none, 5, []⟩ ∧
    (label_image_async 5 1 (fun _ => 0) (fun _ => Response.ok none)).result =
      RunResult.exn :=
  ⟨(c2_amended 5 1 (fun _ => 0)).1 (fun _ => Response.otherStatus 500)
      (fun _ => ⟨500, rfl⟩),
   ((c2_amended 5 1 (fun _ => 0)).2 (fun _ => Response.ok none) rfl (by omega)).1⟩

/-- C3 counterexample: with every attempt rate limited, the value returned
after `max_retries = 5` attempts is the string `"Error: 429"`
(`f"Error: {response.status}"`), not `"max retries exceeded"`. -/
theorem c3_counterexample :
    (label_image_async 5 1 (fun _ => 0) (fun _ => Response.rateLimited)).result =
      RunResult.value (some "Error: 429") ∧
    (label_image_async 5 1 (fun _ => 0) (fun _ => Response.rateLimited)).result ≠
      RunResult.value (some "max retries exceeded") := by
  constructor
  · rfl
  · rw [show (label_image_async 5 1 (fun _ => 0) (fun _ => Response.rateLimited)).result =
        RunResult.value (some "Error: 429") from rfl]
    decide

/-- C3 amended: if every attempt up to `max_retries` returns HTTP 429, the
classification makes exactly `max_retries` attempts and returns the error
string `"Error: 429"`; attempt `max_retries + 1` is never made, so the
conclusion holds whatever the response oracle would say beyond
`max_retries` — a `Success` available only there is never observed. -/
theorem c3_amended (mr : Nat) (d : ℚ) (j : Nat → ℚ) (resp : Nat → Response)
    (hmr : 1 ≤ mr) (h : ∀ n, n < mr → resp n = Response.rateLimited) :
    (label_image_async mr d j resp).result = RunResult.value (some "Error: 429") ∧
    (label_image_async mr d j resp).attempts = mr := by
  have h0 := retryLoop_all429 resp j mr h mr 0 d [] (by omega) (by omega)
  simpa [label_image_async] using h0

/-- Witness for the amended C3: 429 on attempts 1–5 and a success available
on attempt 6; the run still ends with `"Error: 429"` after exactly 5
attempts. -/
theorem c3_amended_witness :
    (label_image_async 5 1 (fun _ => 0)
        (fun n => if n < 5 then Response.rateLimited
          else Response.ok (some "Late Success"))).result =
      RunResult.value (some "Error: 429") ∧
    (label_image_async 5 1 (fun _ => 0)
        (fun n => if n < 5 then Response.rateLimited
          else Response.ok (some "Late Success"))).attempts = 5 :=
  c3_amended 5 1 (fun _ => 0) _ (by omega) (fun n hn => by simp [hn])

/-- C9: there is a response sequence — every attempt an HTTP status that is
neither 200 nor 429, raising no exception — on which `label_image_async`
runs all `max_retries = 5` loop iterations and returns Python `None`:
neither a label string nor an error string, so the per-item result is not
total over label/error strings. -/
theorem c9_fatal_status_returns_none :
    ∃ resp : Nat → Response,
      (∀ n, ∃ c, c ≠ 200 ∧ c ≠ 429 ∧ resp n = Response.otherStatus c) ∧
      (label_image_async 5 1 (fun _ => 0) resp).result = RunResult.value none ∧
      (label_image_async 5 1 (fun _ => 0) resp).attempts = 5 :=
  ⟨fun _ => Response.otherStatus 500,
   fun _ => ⟨500, by omega, by omega, rfl⟩, rfl, rfl⟩

/-- When no task's coroutine raises, `asyncio.gather` returns the tasks'
values in task order. -/
theorem gather_ok (runs : List ItemRun)
    (h : ∀ r ∈ runs, r.result ≠ RunResult.exn) :
    gather runs = Except.ok (runs.map finalValue) := by
  induction runs with
  | nil => rfl
  | cons r rs ih =>
    have hr := h r (List.mem_cons_self r rs)
    cases hres : r.result with
    | exn => exact absurd hres hr
    | value v =>
      simp only [gather, hres, List.map_cons]
      rw [ih (fun x hx => h x (List.mem_cons_of_mem _ hx))]
      simp [Except.map, finalValue, hres]

/-- C1 counterexample: on a one-item input whose only attempt returns
HTTP 200 with a malformed body, `get_labels` does not return a list at
all — the coroutine's uncaught exception re-raises through
`asyncio.gather` — so no output list of the input's length with
positionally corresponding outcomes exists, refuting the unconditional
claim. -/
theorem c1_counterexample :
    get_labels 5 1 [((fun _ => Response.ok none), (fun _ => (0 : ℚ)))] =
      Except.error () := rfl

/-- C1 amended: whenever every per-item run returns normally — i.e. no
item's 200 response has a malformed body, the coroutines' only uncaught
exception — `get_labels` yields a list of exactly the input's length
whose i-th entry is the outcome of the i-th input item's run, for every
index; if any item's body is malformed, `get_labels` raises instead and
returns no list (`c1_counterexample`). -/
theorem c1_positional_correspondence (mr : Nat) (d : ℚ) (envs : List Env)
    (h : ∀ e ∈ envs, (runItem mr d e).result ≠ RunResult.exn) :
    ∃ outs, get_labels mr d envs = Except.ok outs ∧
      outs.length = envs.length ∧
      ∀ i : Nat, outs.get? i =
        (envs.get? i).map (fun e => finalValue (runItem mr d e)) := by
  refine ⟨(envs.map (fun e => runItem mr d e)).map finalValue, ?_, by simp, ?_⟩
  · exact gather_ok _ (by
      intro r hr
      simp only [List.mem_map] at hr
      obtain ⟨e, he, rfl⟩ := hr
      exact h e he)
  · intro i
    simp only [List.get?_eq_getElem?, List.getElem?_map]
    cases envs[i]? <;> rfl

/-- Witness for the amended C1 on a one-item list whose attempt succeeds
at once. -/
theorem c1_witness :
    ∃ outs, get_labels 5 1 [((fun _ => Response.ok (some "A")), (fun _ => (0 : ℚ)))] =
        Except.ok outs ∧ outs.length = 1 := by
  obtain ⟨outs, h1, h2, _⟩ :=
    c1_positional_correspondence 5 1
      [((fun _ => Response.ok (some "A")), (fun _ => (0 : ℚ)))]
      (by
        intro e he
        simp only [List.mem_singleton] at he
        subst he
        decide)
  exact ⟨outs, h1, by simpa using h2⟩

/-- C4 counterexample: the scenario's item C (HTTP 500 on every attempt)
makes 5 attempts, not 1, and its outcome is Python `None`, not a `Failed`
error string. -/
theorem c4_counterexample :
    (runItem 5 1 envC).attempts = 5 ∧ (runItem 5 1 envC).attempts ≠ 1 ∧
    finalValue (runItem 5 1 envC) = none := by
  refine ⟨rfl, ?_, rfl⟩
  rw [show (runItem 5 1 envC).attempts = 5 from rfl]
  omega

/-- C4 amended: on the three-item scenario, the output list is positionally
`[some "Screenshot_VSCode_Python", some "Meme_Cat_Funny", none]` — items A
and B as the spec expects, with B making exactly 3 attempts, but item C's
outcome is `None` (not a `Failed` error string) and C makes 5 attempts (one
request per loop iteration, no sleeps), not 1. -/
theorem c4_amended_scenario :
    get_labels 5 1 [envA, envB, envC] =
      Except.ok [some "Screenshot_VSCode_Python", some "Meme_Cat_Funny", none] ∧
    (runItem 5 1 envA).attempts = 1 ∧
    (runItem 5 1 envB).attempts = 3 ∧
    (runItem 5 1 envC).attempts = 5 ∧
    (runItem 5 1 envC).sleeps = [] :=
  ⟨rfl, rfl, rfl, rfl, rfl⟩

/-- A move loop over pairs none of whose labels is Python `None` does not
crash and performs one move per pair. -/
theorem moveLoop_total (pairs : List (List Char × Option (List Char)))
    (h : ∀ p ∈ pairs, p.2 ≠ none) :
    (moveLoop pairs).2 = false ∧ (moveLoop pairs).1.length = pairs.length := by
  induction pairs with
  | nil => exact ⟨rfl, rfl⟩
  | cons p rest ih =>
    obtain ⟨img, l⟩ := p
    cases l with
    | none => exact absurd rfl (h (img, none) (List.mem_cons_self _ _))
    | some lab =>
      have hrest := ih (fun q hq => h q (List.mem_cons_of_mem _ hq))
      simp only [moveLoop, List.length_cons]
      exact ⟨hrest.1, by rw [hrest.2]⟩

/-- C5 counterexample: a two-item batch in which the first item succeeds
and the second item's 200 response has a malformed body.  The malformed
body raises out of its coroutine, `asyncio.gather` re-raises, and the whole
run aborts before the file-organization step: no file is moved, not even
the first item's — one item's failure did abort the others. -/
theorem c5_counterexample :
    label_and_move_images 5 1 ["a.png".data, "b.png".data]
      [((fun _ => Response.ok (some "A_B")), (fun _ => (0 : ℚ))),
       ((fun _ => Response.ok none), (fun _ => (0 : ℚ)))] = Except.error () := rfl

/-- C5 amended: as long as every item's run returns an actual string —
success labels or the error strings of exhausted retries — no item's
failure aborts or affects the others: `get_labels` completes with one
outcome per item and the file-organization loop performs one move per item.
A malformed 200 body, however, aborts the entire batch
(`c5_counterexample`), and a `None` outcome crashes the move loop partway. -/
theorem c5_amended_independence (mr : Nat) (d : ℚ) (files : List (List Char))
    (envs : List Env) (hlen : files.length = envs.length)
    (h : ∀ e ∈ envs, ∃ s, (runItem mr d e).result = RunResult.value (some s)) :
    ∃ moves, label_and_move_images mr d files envs = Except.ok (moves, false) ∧
      moves.length = files.length := by
  have hne : ∀ e ∈ envs, (runItem mr d e).result ≠ RunResult.exn := by
    intro e he hc
    obtain ⟨s, hs⟩ := h e he
    rw [hs] at hc
    exact RunResult.noConfusion hc
  have hg : get_labels mr d envs =
      Except.ok ((envs.map (fun e => runItem mr d e)).map finalValue) :=
    gather_ok _ (by
      intro r hr
      simp only [List.mem_map] at hr
      obtain ⟨e, he, rfl⟩ := hr
      exact hne e he)
  have hzip : ∀ p ∈ files.zip
      (((envs.map (fun e => runItem mr d e)).map finalValue).map
        (Option.map String.data)), p.2 ≠ none := by
    intro p hp hnone
    have h2 := (List.of_mem_zip hp).2
    simp only [List.map_map, List.mem_map, Function.comp_apply] at h2
    obtain ⟨e, he, hveq⟩ := h2
    obtain ⟨s, hs⟩ := h e he
    rw [hnone] at hveq
    simp [finalValue, hs] at hveq
  have hmt := moveLoop_total _ hzip
  refine ⟨(moveLoop (files.zip
      (((envs.map (fun e => runItem mr d e)).map finalValue).map
        (Option.map String.data)))).1, ?_, ?_⟩
  · simp only [label_and_move_images, hg]
    exact congrArg Except.ok (by rw [← hmt.1])
  · rw [hmt.2, List.length_zip]
    simp [hlen]

/-- Witness for the amended C5 on a one-item batch. -/
theorem c5_amended_witness :
    ∃ moves, label_and_move_images 5 1 ["a.png".data]
        [((fun _ => Response.ok (some "A_B")), (fun _ => (0 : ℚ)))] =
      Except.ok (moves, false) ∧ moves.length = 1 := by
  obtain ⟨moves, h1, h2⟩ :=
    c5_amended_independence 5 1 ["a.png".data]
      [((fun _ => Response.ok (some "A_B")), (fun _ => (0 : ℚ)))] rfl
      (by
        intro e he
        simp only [List.mem_singleton] at he
        subst he
        exact ⟨"A_B", rfl⟩)
  exact ⟨moves, h1, by simpa using h2⟩

/-! ## The sanitizer and the split/move step -/

/-- A chain of one-character replacements acts pointwise on the character
sequence. -/
theorem foldl_pyReplaceChar (cs : List Char) :
    ∀ s : List Char, cs.foldl (fun l c => pyReplaceChar l c '_') s =
      s.map (fun a => cs.foldl (fun b c => if b = c then '_' else b) a) := by
  induction cs with
  | nil => intro s; simp
  | cons c cs ih =>
    intro s
    simp only [List.foldl_cons]
    rw [ih (pyReplaceChar s c '_')]
    simp only [pyReplaceChar, List.map_map]
    rfl

/-- The loop of `sanitize_label` is the pointwise action of `sanitizeChar`. -/
theorem sanitizeChars_eq_map (s : List Char) :
    sanitizeChars s = s.map sanitizeChar :=
  foldl_pyReplaceChar invalid_chars s

/-- A character outside the invalid set survives the replace chain. -/
theorem char_chain_of_not_mem (cs : List Char) (a : Char) (h : a ∉ cs) :
    cs.foldl (fun b c => if b = c then '_' else b) a = a := by
  induction cs with
  | nil => rfl
  | cons c cs ih =>
    simp only [List.mem_cons, not_or] at h
    simp only [List.foldl_cons, if_neg h.1]
    exact ih h.2

/-- An invalid character is replaced by an underscore. -/
theorem sanitizeChar_mem (a : Char) (h : a ∈ invalid_chars) :
    sanitizeChar a = '_' := by
  fin_cases h <;> rfl

/-- A valid character is untouched. -/
theorem sanitizeChar_not_mem (a : Char) (h : a ∉ invalid_chars) :
    sanitizeChar a = a :=
  char_chain_of_not_mem invalid_chars a h

/-- The output of `sanitizeChar` is never an invalid character. -/
theorem sanitizeChar_valid (a : Char) : sanitizeChar a ∉ invalid_chars := by
  by_cases h : a ∈ invalid_chars
  · rw [sanitizeChar_mem a h]
    decide
  · rw [sanitizeChar_not_mem a h]
    exact h

/-- Idempotence of `sanitizeChar`. -/
theorem sanitizeChar_idem (a : Char) :
    sanitizeChar (sanitizeChar a) = sanitizeChar a :=
  sanitizeChar_not_mem _ (sanitizeChar_valid a)

/-- C10: for every string, `sanitize_label` leaves none of the characters
`/ : * ? " < > |` in its output, and applying it twice is the same as
applying it once. -/
theorem c10_sanitize_clean_idempotent (s : String) :
    (∀ c ∈ (sanitize_label s).data, c ∉ invalid_chars) ∧
    sanitize_label (sanitize_label s) = sanitize_label s := by
  constructor
  · intro c hc
    have hdata : (sanitize_label s).data = s.data.map sanitizeChar := by
      show sanitizeChars s.data = s.data.map sanitizeChar
      exact sanitizeChars_eq_map s.data
    rw [hdata] at hc
    simp only [List.mem_map] at hc
    obtain ⟨a, _, rfl⟩ := hc
    exact sanitizeChar_valid a
  · show String.mk (sanitizeChars (sanitizeChars s.data)) = String.mk (sanitizeChars s.data)
    refine congrArg String.mk ?_
    rw [sanitizeChars_eq_map, sanitizeChars_eq_map, List.map_map]
    apply List.map_congr_left
    intro a _
    simp only [Function.comp_apply]
    exact sanitizeChar_idem a

/-- Witness for C10 at `s = "a/b"`: the character kept in the output is not
invalid, and sanitizing twice equals sanitizing once. -/
theorem c10_witness :
    'a' ∉ invalid_chars ∧
    sanitize_label (sanitize_label "a/b") = sanitize_label "a/b" :=
  ⟨(c10_sanitize_clean_idempotent "a/b").1 'a' (by decide),
   (c10_sanitize_clean_idempotent "a/b").2⟩

/-- A Python `split` never produces an empty list of chunks. -/
theorem pySplitParts_ne_nil (sep : Char) : ∀ s, pySplitParts sep s ≠ [] := by
  intro s
  cases s with
  | nil => simp [pySplitParts]
  | cons c cs =>
    simp only [pySplitParts]
    cases h : pySplitParts sep cs with
    | nil => simp
    | cons p ps => by_cases hc : c = sep <;> simp [hc]

/-- The chunk `s.split(sep)[0]` is the prefix of `s` up to the first `sep`. -/
theorem pySplitParts_headD (sep : Char) :
    ∀ s : List Char,
      (pySplitParts sep s).headD [] = s.takeWhile (fun c => c != sep) := by
  intro s
  induction s with
  | nil => rfl
  | cons c cs ih =>
    simp only [pySplitParts]
    cases h : pySplitParts sep cs with
    | nil => exact absurd h (pySplitParts_ne_nil sep cs)
    | cons p ps =>
      rw [h] at ih
      simp only [List.headD_cons] at ih
      by_cases hc : c = sep
      · subst hc
        simp [List.takeWhile_cons]
      · simp [hc, List.takeWhile_cons, ih]

/-- Dropping one past the matched prefix is dropping one into the matched
suffix. -/
theorem drop_takeWhile_length (p : Char → Bool) :
    ∀ s : List Char,
      s.drop ((s.takeWhile p).length + 1) = (s.dropWhile p).drop 1 := by
  intro s
  induction s with
  | nil => rfl
  | cons c cs ih =>
    by_cases hc : p c
    · simpa [List.takeWhile_cons, List.dropWhile_cons, hc] using ih
    · simp [List.takeWhile_cons, List.dropWhile_cons, hc]

/-- A Python `split` on a separator absent from the string returns the
whole string as the single chunk. -/
theorem pySplitParts_of_not_mem (sep : Char) :
    ∀ s : List Char, sep ∉ s → pySplitParts sep s = [s] := by
  intro s
  induction s with
  | nil => intro _; rfl
  | cons c cs ih =>
    intro h
    simp only [List.mem_cons, not_or] at h
    simp only [pySplitParts, ih h.2]
    rw [if_neg (fun hc => h.1 hc.symm)]

/-- One unfolding step of the Python `split` on a nonempty string. -/
theorem pySplitParts_cons (sep c : Char) (cs : List Char) :
    pySplitParts sep (c :: cs) =
      if c = sep then [] :: pySplitParts sep cs
      else (c :: (pySplitParts sep cs).headD []) :: (pySplitParts sep cs).tail := by
  cases h : pySplitParts sep cs with
  | nil => exact absurd h (pySplitParts_ne_nil sep cs)
  | cons p ps => by_cases hc : c = sep <;> simp [pySplitParts, h, hc]

/-- A Python `split` produces one more chunk than there are separator
occurrences. -/
theorem pySplitParts_length (sep : Char) :
    ∀ s : List Char, (pySplitParts sep s).length = s.count sep + 1 := by
  intro s
  induction s with
  | nil => rfl
  | cons c cs ih =>
    rw [pySplitParts_cons]
    by_cases hc : c = sep
    · rw [if_pos hc, List.length_cons, ih]
      subst hc
      rw [List.count_cons_self]
    · rw [if_neg hc, List.length_cons, List.count_cons_of_ne (Ne.symm hc)]
      cases hps : pySplitParts sep cs with
      | nil => exact absurd hps (pySplitParts_ne_nil sep cs)
      | cons p ps =>
        rw [hps] at ih
        simp only [List.length_cons] at ih
        simpa using ih

/-- The chunk `s.split(sep)[-1]` of `name ++ sep :: ext`, with `sep` absent from
`ext`, is `ext`: the chunk after the last separator. -/
theorem pySplitParts_getLastD (sep : Char) (ext : List Char) (hext : sep ∉ ext) :
    ∀ name : List Char,
      (pySplitParts sep (name ++ sep :: ext)).getLastD [] = ext := by
  intro name
  induction name with
  | nil =>
    simp only [List.nil_append, pySplitParts, pySplitParts_of_not_mem sep ext hext,
      if_pos rfl]
    simp [List.getLastD_cons]
  | cons c name ih =>
    rw [List.cons_append, pySplitParts_cons]
    cases h : pySplitParts sep (name ++ sep :: ext) with
    | nil => exact absurd h (pySplitParts_ne_nil _ _)
    | cons p ps =>
      rw [h] at ih
      by_cases hc : c = sep
      · rw [if_pos hc]
        simpa [List.getLastD_cons] using ih
      · rw [if_neg hc]
        simp only [List.headD_cons, List.tail_cons]
        cases ps with
        | nil =>
          exfalso
          have hlen := pySplitParts_length sep (name ++ sep :: ext)
          rw [h] at hlen
          simp only [List.length_singleton, List.count_append,
            List.count_cons_self] at hlen
          omega
        | cons q qs =>
          rw [List.getLastD_cons, List.getLastD_cons] at ih ⊢
          simpa using ih

/-- C8: the move computed for a raw label takes the substring before the
first `"_"` (with `"s"` appended) as the destination subfolder, and the
remainder after that first `"_"`, with every filesystem-unsafe character
replaced, as the destination filename, followed by a dot and the source
file's extension (its part after the last `"."`). -/
theorem c8_move_refines_spec (label image name ext : List Char)
    (himg : image = name ++ '.' :: ext) (hext : '.' ∉ ext) :
    mkMove label image =
      { folder := specBeforeFirst '_' label ++ ['s'],
        filename := sanitizeChars (specAfterFirst '_' label) ++ '.' :: ext } := by
  subst himg
  simp only [mkMove, pySplitParts_headD, pySplitParts_getLastD '.' ext hext name]
  rw [drop_takeWhile_length]
  rfl

/-- Witness for C8 on the label `"Meme_Cat"` and the file `"img.png"`. -/
theorem c8_witness :
    mkMove ("Meme_Cat".data) ("img.png".data) =
      { folder := specBeforeFirst '_' ("Meme_Cat".data) ++ ['s'],
        filename := sanitizeChars (specAfterFirst '_' ("Meme_Cat".data)) ++
          '.' :: ("png".data) } :=
  c8_move_refines_spec ("Meme_Cat".data) ("img.png".data) ("img".data)
    ("png".data) (by decide) (by decide)

/-- C7 counterexample: a single item whose final outcome is the `Failed` of
the fatal path — Python `None` — is not moved at all: `label.split("_")`
raises `AttributeError` and the move loop aborts with no move performed. -/
theorem c7_counterexample :
    moveLoop [("a.png".data, none)] = ([], true) := rfl

/-- C7 amended: an item whose final outcome is an error string (the
`"Error: …"` values of exhausted retries) is still moved, its error text
up to the first `"_"` (plus `"s"`) becoming the destination subfolder; but
an item whose outcome is Python `None` (every-attempt-fatal statuses)
makes the loop raise: it is not moved and neither is any item after it. -/
theorem c7_amended_error_string_moved :
    (∀ (img l : List Char) (rest : List (List Char × Option (List Char))),
        moveLoop ((img, some l) :: rest) =
          ((img, mkMove l img) :: (moveLoop rest).1, (moveLoop rest).2) ∧
        (mkMove l img).folder = specBeforeFirst '_' l ++ ['s']) ∧
    (∀ (img : List Char) (rest : List (List Char × Option (List Char))),
        moveLoop ((img, none) :: rest) = ([], true)) := by
  refine ⟨fun img l rest => ⟨rfl, ?_⟩, fun img rest => rfl⟩
  simp only [mkMove, pySplitParts_headD]
  rfl

end GPTV
